import Mathlib

/-!
Shallow embedding of cups/hash.c (cupsHashData and cupsHashString).

Conventions of the embedding:
* A C pointer argument is an Option: none models a null pointer.
* A byte buffer is a List Nat together with its declared capacity, which we
  identify with the list length (each element is one byte of the buffer).
* The data argument of cupsHashData is an Option (List Nat); the C pair
  (data, datalen) is modelled so that datalen is the length of the list.
* The backend digest primitives (CommonCrypto / GnuTLS / md5-internal) are
  external collaborators of this file; cupsHashData is parameterised over a
  Backend record holding one digest function per primitive.
* Calls to the error reporter _cupsSetError are recorded in an errors field
  of the result, in call order, as (status, message) pairs.
* The embedding follows the full-backend configuration of hash.c (the
  CommonCrypto branch, lines 53-185); the GnuTLS branch has the same
  observable behaviour for all eight recognized algorithm names.
-/

/-- Status code passed to _cupsSetError on every failure path of hash.c
(server-error-internal-error). The numeric value is opaque to this file. -/
def IPP_STATUS_ERROR_INTERNAL : Nat := 1280

/-- The error report of hash.c line 49. -/
def badArgsError : Nat × String := (IPP_STATUS_ERROR_INTERNAL, "Bad arguments to function")

/-- The error report of hash.c line 283. -/
def unknownAlgError : Nat × String := (IPP_STATUS_ERROR_INTERNAL, "Unknown hash algorithm.")

/-- The error report of hash.c line 293. -/
def tooSmallError : Nat × String := (IPP_STATUS_ERROR_INTERNAL, "Hash buffer too small.")

/-- External backend digest primitives consumed by cupsHashData: one
single-shot digest function per underlying primitive. sha512 is also used
for the two truncated variants. -/
structure Backend where
  md5 : List Nat → List Nat
  sha1 : List Nat → List Nat
  sha224 : List Nat → List Nat
  sha256 : List Nat → List Nat
  sha384 : List Nat → List Nat
  sha512 : List Nat → List Nat

/-- The backend contract assumed by hash.c: each primitive produces its
fixed digest length (CC_MD5_DIGEST_LENGTH = 16, CC_SHA1_DIGEST_LENGTH = 20,
and so on). -/
def BackendLengths (b : Backend) : Prop :=
  (∀ d, (b.md5 d).length = 16) ∧
  (∀ d, (b.sha1 d).length = 20) ∧
  (∀ d, (b.sha224 d).length = 28) ∧
  (∀ d, (b.sha256 d).length = 32) ∧
  (∀ d, (b.sha384 d).length = 48) ∧
  (∀ d, (b.sha512 d).length = 64)

/-- Writing exactly n bytes of out at the start of buffer buf, as
CC_..._Final and memcpy do: bytes of buf from index n on are untouched. -/
def writeBytes (buf out : List Nat) (n : Nat) : List Nat :=
  out.take n ++ buf.drop n

/-- Result of a cupsHashData call: the ssize_t return value, the final
contents of the hash buffer of the caller (none for a null pointer), and
the _cupsSetError calls made. -/
structure HashResult where
  ret : Int
  buf : Option (List Nat)
  errors : List (Nat × String)
deriving DecidableEq, Repr

/-- Embedding of cupsHashData (hash.c lines 40-295, CommonCrypto branch).
The strcmp chain is translated if/else-if by if/else-if in source order;
each branch checks hashsize against the digest length (goto too_small) and
otherwise writes the digest and returns its length. The two truncated
variants compute the full 64-byte SHA-512 digest into a local temp and
memcpy only the leading 28 or 32 bytes. -/
def cupsHashData (b : Backend) (algorithm : Option String) (data : Option (List Nat))
    (hash : Option (List Nat)) : HashResult :=
  match algorithm, data, hash with
  | some alg, some d, some buf =>
    -- line 47: datalen == 0 and hashsize == 0 checks (null cases are below)
    if d.length = 0 ∨ buf.length = 0 then
      { ret := -1, buf := some buf, errors := [badArgsError] }
    else if alg = "md5" then
      if buf.length < 16 then { ret := -1, buf := some buf, errors := [tooSmallError] }
      else { ret := 16, buf := some (writeBytes buf (b.md5 d) 16), errors := [] }
    else if alg = "sha" then
      if buf.length < 20 then { ret := -1, buf := some buf, errors := [tooSmallError] }
      else { ret := 20, buf := some (writeBytes buf (b.sha1 d) 20), errors := [] }
    else if alg = "sha2-224" then
      if buf.length < 28 then { ret := -1, buf := some buf, errors := [tooSmallError] }
      else { ret := 28, buf := some (writeBytes buf (b.sha224 d) 28), errors := [] }
    else if alg = "sha2-256" then
      if buf.length < 32 then { ret := -1, buf := some buf, errors := [tooSmallError] }
      else { ret := 32, buf := some (writeBytes buf (b.sha256 d) 32), errors := [] }
    else if alg = "sha2-384" then
      if buf.length < 48 then { ret := -1, buf := some buf, errors := [tooSmallError] }
      else { ret := 48, buf := some (writeBytes buf (b.sha384 d) 48), errors := [] }
    else if alg = "sha2-512" then
      if buf.length < 64 then { ret := -1, buf := some buf, errors := [tooSmallError] }
      else { ret := 64, buf := some (writeBytes buf (b.sha512 d) 64), errors := [] }
    else if alg = "sha2-512_224" then
      -- lines 143-163: full SHA-512 into temp, memcpy of the first 28 bytes
      if buf.length < 28 then { ret := -1, buf := some buf, errors := [tooSmallError] }
      else { ret := 28, buf := some (writeBytes buf (b.sha512 d) 28), errors := [] }
    else if alg = "sha2-512_256" then
      -- lines 165-185: full SHA-512 into temp, memcpy of the first 32 bytes
      if buf.length < 32 then { ret := -1, buf := some buf, errors := [tooSmallError] }
      else { ret := 32, buf := some (writeBytes buf (b.sha512 d) 32), errors := [] }
    else
      -- lines 279-285: unknown hash algorithm
      { ret := -1, buf := some buf, errors := [unknownAlgError] }
  | _, _, _ =>
    -- line 47: one of algorithm, data, hash is a null pointer
    { ret := -1, buf := hash, errors := [badArgsError] }

/-- The set of algorithm identifiers recognized by cupsHashData. -/
def recognizedAlgs : List String :=
  ["md5", "sha", "sha2-224", "sha2-256", "sha2-384", "sha2-512", "sha2-512_224", "sha2-512_256"]

/-- Canonical digest length in bytes of each recognized identifier. -/
def canonLen : String → Nat
  | "md5" => 16
  | "sha" => 20
  | "sha2-224" => 28
  | "sha2-256" => 32
  | "sha2-384" => 48
  | "sha2-512" => 64
  | "sha2-512_224" => 28
  | "sha2-512_256" => 32
  | _ => 0

/-- Reference digest of each recognized identifier in terms of the backend
primitives: the matching primitive, with the truncated variants defined as
the leading bytes of the SHA-512 digest. -/
def refDigest (b : Backend) (alg : String) (d : List Nat) : List Nat :=
  match alg with
  | "md5" => b.md5 d
  | "sha" => b.sha1 d
  | "sha2-224" => b.sha224 d
  | "sha2-256" => b.sha256 d
  | "sha2-384" => b.sha384 d
  | "sha2-512" => b.sha512 d
  | "sha2-512_224" => (b.sha512 d).take 28
  | "sha2-512_256" => (b.sha512 d).take 32
  | _ => []

/-- The digest actually produced by the backend in the branch selected for
each identifier, before any truncation: the two truncated variants run the
SHA-512 primitive. -/
def rawDigest (b : Backend) (alg : String) (d : List Nat) : List Nat :=
  match alg with
  | "md5" => b.md5 d
  | "sha" => b.sha1 d
  | "sha2-224" => b.sha224 d
  | "sha2-256" => b.sha256 d
  | "sha2-384" => b.sha384 d
  | "sha2-512" => b.sha512 d
  | "sha2-512_224" => b.sha512 d
  | "sha2-512_256" => b.sha512 d
  | _ => []

/-- Byte values of the hex character table of cupsHashString (hash.c line
314): the codes of the characters of "0123456789abcdef". -/
def hexDigits : List Nat := [48, 49, 50, 51, 52, 53, 54, 55, 56, 57, 97, 98, 99, 100, 101, 102]

/-- Indexing into the hex table. -/
def hexChar (n : Nat) : Nat := hexDigits.getD n 0

/-- The conversion loop of cupsHashString (hash.c lines 333-340): each byte
yields hex[byte >> 4] then hex[byte & 15]. -/
def hexPairs : List Nat → List Nat
  | [] => []
  | b :: rest => hexChar (b >>> 4) :: hexChar (b &&& 15) :: hexPairs rest

/-- Result of a cupsHashString call: the returned const char pointer (none
models NULL, some s models returning the buffer whose contents are then s),
the final contents of the buffer of the caller, and the _cupsSetError calls made
(cupsHashString makes none). -/
structure HashStringResult where
  ret : Option (List Nat)
  buf : Option (List Nat)
  errors : List (Nat × String)
deriving DecidableEq, Repr

/-- Embedding of cupsHashString (hash.c lines 306-345). On a range check
failure the single byte write *buffer = 0 is List.set 0 0; otherwise the
2 * hashsize hex characters and the terminator are written at the start of
the buffer and the buffer is returned. -/
def cupsHashString (hash : Option (List Nat)) (buffer : Option (List Nat)) : HashStringResult :=
  match hash, buffer with
  | some h, some buf =>
    if h.length < 1 ∨ buf.length < 2 * h.length + 1 then
      { ret := none, buf := some (buf.set 0 0), errors := [] }
    else
      { ret := some (writeBytes buf (hexPairs h ++ [0]) (2 * h.length + 1)),
        buf := some (writeBytes buf (hexPairs h ++ [0]) (2 * h.length + 1)), errors := [] }
  | none, some buf => { ret := none, buf := some (buf.set 0 0), errors := [] }
  | _, none => { ret := none, buf := none, errors := [] }

/-- Rotate a 32-bit word left by n bits. -/
def rotl32 (n x : Nat) : Nat :=
  ((x <<< n) ||| (x >>> (32 - n))) % 2 ^ 32

/-- SHA-1 round constants. -/
def sha1K (t : Nat) : Nat :=
  if t < 20 then 0x5a827999
  else if t < 40 then 0x6ed9eba1
  else if t < 60 then 0x8f1bbcdc
  else 0xca62c1d6

/-- SHA-1 round functions. -/
def sha1F (t b c d : Nat) : Nat :=
  if t < 20 then (b &&& c) ||| ((b ^^^ 0xffffffff) &&& d)
  else if t < 40 then b ^^^ c ^^^ d
  else if t < 60 then (b &&& c) ||| (b &&& d) ||| (c &&& d)
  else b ^^^ c ^^^ d

/-- Big-endian grouping of bytes into 32-bit words. -/
def bytesToWords : List Nat → List Nat
  | a :: b :: c :: d :: rest => (a * 2 ^ 24 + b * 2 ^ 16 + c * 2 ^ 8 + d) :: bytesToWords rest
  | _ => []

/-- The k-byte big-endian encoding of a number. -/
def natToBytesBE : Nat → Nat → List Nat
  | 0, _ => []
  | k + 1, v => natToBytesBE k (v / 256) ++ [v % 256]

/-- Extension of the 16-word message schedule by n further words. -/
def sha1Extend : Nat → List Nat → List Nat
  | 0, w => w
  | n + 1, w =>
    let t := w.length
    let x := rotl32 1 ((w.getD (t - 3) 0) ^^^ (w.getD (t - 8) 0) ^^^
      (w.getD (t - 14) 0) ^^^ (w.getD (t - 16) 0))
    sha1Extend n (w ++ [x])

/-- The five 32-bit working registers of SHA-1. -/
structure SHA1State where
  a : Nat
  b : Nat
  c : Nat
  d : Nat
  e : Nat
deriving DecidableEq, Repr

/-- One SHA-1 round: t is the round index, w the 80-word schedule. -/
def sha1Round (w : List Nat) (st : SHA1State) (t : Nat) : SHA1State :=
  let temp := (rotl32 5 st.a + sha1F t st.b st.c st.d + st.e + w.getD t 0 + sha1K t) % 2 ^ 32
  ⟨temp, st.a, rotl32 30 st.b, st.c, st.d⟩

/-- Compression of one 64-byte block into the chaining state. -/
def sha1Block (st : SHA1State) (block : List Nat) : SHA1State :=
  let w := sha1Extend 64 (bytesToWords block)
  let f := (List.range 80).foldl (sha1Round w) st
  ⟨(st.a + f.a) % 2 ^ 32, (st.b + f.b) % 2 ^ 32, (st.c + f.c) % 2 ^ 32,
   (st.d + f.d) % 2 ^ 32, (st.e + f.e) % 2 ^ 32⟩

/-- Merkle-Damgard padding: 0x80, zeros to 56 mod 64, 8-byte bit length. -/
def sha1Pad (msg : List Nat) : List Nat :=
  msg ++ [0x80] ++ List.replicate ((120 - (msg.length + 1) % 64) % 64) 0 ++
    natToBytesBE 8 (8 * msg.length)

/-- Splitting into 64-byte blocks; the first argument is fuel, always
instantiated with the list length. -/
def chunks64 : Nat → List Nat → List (List Nat)
  | 0, _ => []
  | _, [] => []
  | n + 1, l => l.take 64 :: chunks64 n (l.drop 64)

/-- Modelled from the spec: the external SHA-1 backend digest primitive
(CC_SHA1_Init/Update/Final resp. GNUTLS_DIG_SHA1), which is not part of
this repository. The spec names it as the backend for the "sha"
identifier, producing the canonical 20-byte SHA-1 digest; this is the
FIPS 180-1 algorithm. -/
def sha1 (msg : List Nat) : List Nat :=
  let padded := sha1Pad msg
  let f := (chunks64 padded.length padded).foldl sha1Block
    ⟨0x67452301, 0xefcdab89, 0x98badcfe, 0x10325476, 0xc3d2e1f0⟩
  natToBytesBE 4 f.a ++ natToBytesBE 4 f.b ++ natToBytesBE 4 f.c ++
    natToBytesBE 4 f.d ++ natToBytesBE 4 f.e

/-- A concrete backend used to instantiate universally quantified theorems
at concrete inputs: real SHA-1 for the sha primitive, fixed-length
placeholder digests for the primitives no concrete claim depends on. -/
def specBackend : Backend where
  md5 := fun _ => List.replicate 16 0
  sha1 := sha1
  sha224 := fun _ => List.replicate 28 0
  sha256 := fun _ => List.replicate 32 0
  sha384 := fun _ => List.replicate 48 0
  sha512 := fun _ => List.replicate 64 0

/-- Decoder used to state the round-trip property: maps two hex character
codes back to the byte they encode, pairwise. -/
def unhexChar (c : Nat) : Nat := if 97 ≤ c then c - 87 else c - 48

/-- Pairwise decoding of a hex string (as character codes) back to bytes. -/
def hexDecode : List Nat → List Nat
  | h :: l :: rest => (unhexChar h * 16 + unhexChar l) :: hexDecode rest
  | _ => []

/-- The character codes of a string literal, used to state what text a
byte buffer holds. -/
def strBytes (s : String) : List Nat := s.data.map Char.toNat

/-! ## General lemmas about the embedding -/

theorem natToBytesBE_length (k : Nat) : ∀ v, (natToBytesBE k v).length = k := by
  induction k with
  | zero => intro v; rfl
  | succ n ih => intro v; simp [natToBytesBE, ih]

theorem sha1_length (msg : List Nat) : (sha1 msg).length = 20 := by
  simp [sha1, natToBytesBE_length]

theorem specBackend_lengths : BackendLengths specBackend := by
  refine ⟨fun d => ?_, fun d => ?_, fun d => ?_, fun d => ?_, fun d => ?_, fun d => ?_⟩ <;>
    simp [specBackend, sha1_length]

theorem hexPairs_length (d : List Nat) : (hexPairs d).length = 2 * d.length := by
  induction d with
  | nil => rfl
  | cons b rest ih => simp [hexPairs, ih]; omega

/-- Any of the five argument violations of hash.c line 47 yields the
bad-arguments result, for every backend, with the buffer untouched. -/
theorem cupsHashData_badArgs (b : Backend) (algorithm : Option String)
    (data hash : Option (List Nat))
    (h : algorithm = none ∨ data = none ∨ data = some [] ∨ hash = none ∨ hash = some []) :
    cupsHashData b algorithm data hash =
      { ret := -1, buf := hash, errors := [badArgsError] } := by
  cases algorithm with
  | none => cases data <;> cases hash <;> rfl
  | some alg =>
    cases data with
    | none => cases hash <;> rfl
    | some d =>
      cases hash with
      | none => rfl
      | some buf =>
        rcases h with h | h | h | h | h
        · exact absurd h (by simp)
        · exact absurd h (by simp)
        · obtain rfl : d = [] := by simpa using h
          simp [cupsHashData]
        · exact absurd h (by simp)
        · obtain rfl : buf = [] := by simpa using h
          simp [cupsHashData]

/-- C5: cupsHashData returns the invalid-argument failure sentinel -1, with
no algorithm resolution, no backend invocation, and no write to the output
buffer, whenever the algorithm pointer is null, the data pointer is null,
the data length is zero, the hash buffer pointer is null, or the declared
buffer capacity is zero. -/
theorem claim_C5 (b : Backend) (algorithm : Option String) (data : Option (List Nat))
    (hash : Option (List Nat))
    (h : algorithm = none ∨ data = none ∨ data = some [] ∨ hash = none ∨ hash = some []) :
    cupsHashData b algorithm data hash =
      { ret := -1, buf := hash, errors := [badArgsError] } ∧
    ∀ b2 : Backend, cupsHashData b2 algorithm data hash = cupsHashData b algorithm data hash :=
  ⟨cupsHashData_badArgs b algorithm data hash h, fun b2 => by
    rw [cupsHashData_badArgs b2 algorithm data hash h,
      cupsHashData_badArgs b algorithm data hash h]⟩

/-- Witness for C5 at a concrete input: data of length zero. -/
theorem claim_C5_witness :
    (some ([] : List Nat) = none ∨ some ([] : List Nat) = none ∨
      some ([] : List Nat) = some [] ∨ some (List.replicate 16 0) = none ∨
      (some (List.replicate 16 0) : Option (List Nat)) = some []) ∧
    cupsHashData specBackend (some ("md5")) (some []) (some (List.replicate 16 0)) =
      { ret := -1, buf := some (List.replicate 16 0), errors := [badArgsError] } :=
  ⟨by simp, (claim_C5 specBackend (some ("md5")) (some []) (some (List.replicate 16 0))
    (by simp)).1⟩

/-- C6: an algorithm identifier outside the recognized set produces the
unknown-algorithm failure (-1), for every data and every non-empty buffer
(in particular a 64-byte one), with the buffer untouched; the outcome does
not depend on the backend. -/
theorem claim_C6 (b : Backend) (alg : String) (d buf : List Nat)
    (halg : alg ∉ recognizedAlgs) (hd : d ≠ []) (hbuf : buf ≠ []) :
    cupsHashData b (some alg) (some d) (some buf) =
      { ret := -1, buf := some buf, errors := [unknownAlgError] } := by
  simp only [recognizedAlgs, List.mem_cons, List.mem_singleton, not_or] at halg
  obtain ⟨h1, h2, h3, h4, h5, h6, h7, h8⟩ := halg
  simp [cupsHashData, h1, h2, h3, h4, h5, h6, h7, h8, List.length_eq_zero, hd, hbuf]

/-- Witness for C6 at a concrete input. -/
theorem claim_C6_witness :
    ("not-a-real-algorithm" ∉ recognizedAlgs) ∧ ([1] : List Nat) ≠ [] ∧
    (List.replicate 64 0 : List Nat) ≠ [] ∧
    cupsHashData specBackend (some ("not-a-real-algorithm")) (some [1])
        (some (List.replicate 64 0)) =
      { ret := -1, buf := some (List.replicate 64 0), errors := [unknownAlgError] } :=
  ⟨by decide, by decide, by simp, claim_C6 specBackend ("not-a-real-algorithm") [1]
    (List.replicate 64 0) (by decide) (by decide) (by simp)⟩

/-- C4: for every recognized algorithm, a buffer with capacity below the
canonical digest length makes cupsHashData return -1 with the prior
contents of the buffer unmodified; the result does not depend on the backend (the
capacity check precedes any digest primitive call), and with a non-zero
capacity the failure reported is the buffer-too-small one. -/
theorem claim_C4 (b : Backend) (alg : String) (d buf : List Nat)
    (halg : alg ∈ recognizedAlgs) (hd : d ≠ []) (hcap : buf.length < canonLen alg) :
    (cupsHashData b (some alg) (some d) (some buf)).ret = -1 ∧
    (cupsHashData b (some alg) (some d) (some buf)).buf = some buf ∧
    (∀ b2 : Backend, cupsHashData b2 (some alg) (some d) (some buf) =
      cupsHashData b (some alg) (some d) (some buf)) ∧
    (buf ≠ [] → (cupsHashData b (some alg) (some d) (some buf)).errors = [tooSmallError]) := by
  have hd0 : ¬ d.length = 0 := by simpa [List.length_eq_zero] using hd
  rcases eq_or_ne buf [] with rfl | hbuf
  · refine ⟨?_, ?_, ?_, ?_⟩ <;> simp [cupsHashData, hd0]
  · have hb0 : ¬ buf.length = 0 := by simpa [List.length_eq_zero] using hbuf
    simp only [recognizedAlgs, List.mem_cons, List.not_mem_nil, or_false] at halg
    rcases halg with rfl | rfl | rfl | rfl | rfl | rfl | rfl | rfl <;>
      simp only [canonLen] at hcap <;>
      refine ⟨?_, ?_, ?_, ?_⟩ <;> simp [cupsHashData, hd0, hb0, hcap]

/-- Witness for C4 at a concrete input: md5 with a 15-byte buffer. -/
theorem claim_C4_witness :
    ("md5" ∈ recognizedAlgs) ∧ (List.replicate 15 0 : List Nat).length < canonLen ("md5") ∧
    (cupsHashData specBackend (some ("md5")) (some [1]) (some (List.replicate 15 0))).ret = -1 ∧
    (cupsHashData specBackend (some ("md5")) (some [1])
      (some (List.replicate 15 0))).buf = some (List.replicate 15 0) ∧
    (cupsHashData specBackend (some ("md5")) (some [1])
      (some (List.replicate 15 0))).errors = [tooSmallError] := by
  have h := claim_C4 specBackend ("md5") [1] (List.replicate 15 0)
    (by decide) (by decide) (by decide)
  exact ⟨by decide, by decide, h.1, h.2.1, h.2.2.2 (by decide)⟩

/-- The canonical digest length of every recognized identifier is at
least 16 bytes. -/
theorem canonLen_pos (alg : String) (h : alg ∈ recognizedAlgs) : 16 ≤ canonLen alg := by
  simp only [recognizedAlgs, List.mem_cons, List.not_mem_nil, or_false] at h
  rcases h with rfl | rfl | rfl | rfl | rfl | rfl | rfl | rfl <;> decide

/-- Master dispatch lemma: for non-null arguments with non-zero data length
and capacity, cupsHashData is the capacity check against the canonical
length followed by the write of the digest of the branch, or the
unknown-algorithm failure for an unrecognized identifier. -/
theorem cupsHashData_spec (b : Backend) (alg : String) (d buf : List Nat)
    (hd : ¬ d.length = 0) (hb : ¬ buf.length = 0) :
    cupsHashData b (some alg) (some d) (some buf) =
      if alg ∈ recognizedAlgs then
        if buf.length < canonLen alg then
          { ret := -1, buf := some buf, errors := [tooSmallError] }
        else
          { ret := (canonLen alg : Int),
            buf := some (writeBytes buf (rawDigest b alg d) (canonLen alg)), errors := [] }
      else { ret := -1, buf := some buf, errors := [unknownAlgError] } := by
  by_cases h1 : alg = "md5"
  · subst h1; simp [cupsHashData, recognizedAlgs, canonLen, rawDigest, hd, hb]
  by_cases h2 : alg = "sha"
  · subst h2; simp [cupsHashData, recognizedAlgs, canonLen, rawDigest, hd, hb, h1]
  by_cases h3 : alg = "sha2-224"
  · subst h3; simp [cupsHashData, recognizedAlgs, canonLen, rawDigest, hd, hb, h1, h2]
  by_cases h4 : alg = "sha2-256"
  · subst h4; simp [cupsHashData, recognizedAlgs, canonLen, rawDigest, hd, hb, h1, h2, h3]
  by_cases h5 : alg = "sha2-384"
  · subst h5; simp [cupsHashData, recognizedAlgs, canonLen, rawDigest, hd, hb, h1, h2, h3, h4]
  by_cases h6 : alg = "sha2-512"
  · subst h6
    simp [cupsHashData, recognizedAlgs, canonLen, rawDigest, hd, hb, h1, h2, h3, h4, h5]
  by_cases h7 : alg = "sha2-512_224"
  · subst h7
    simp [cupsHashData, recognizedAlgs, canonLen, rawDigest, hd, hb, h1, h2, h3, h4, h5, h6]
  by_cases h8 : alg = "sha2-512_256"
  · subst h8
    simp [cupsHashData, recognizedAlgs, canonLen, rawDigest, hd, hb, h1, h2, h3, h4, h5, h6, h7]
  simp [cupsHashData, recognizedAlgs, hd, hb, h1, h2, h3, h4, h5, h6, h7, h8]

/-- Case split of the error reports of cupsHashData: every call either
fails with exactly one report or succeeds with none. -/
theorem cupsHashData_errors (b : Backend) (algorithm : Option String)
    (data hash : Option (List Nat)) :
    ((cupsHashData b algorithm data hash).ret = -1 ∧
      (cupsHashData b algorithm data hash).errors.length = 1) ∨
    ((cupsHashData b algorithm data hash).ret ≠ -1 ∧
      (cupsHashData b algorithm data hash).errors = []) := by
  cases algorithm with
  | none => cases data <;> cases hash <;> exact Or.inl ⟨rfl, rfl⟩
  | some alg =>
    cases data with
    | none => cases hash <;> exact Or.inl ⟨rfl, rfl⟩
    | some d =>
      cases hash with
      | none => exact Or.inl ⟨rfl, rfl⟩
      | some buf =>
        rcases eq_or_ne d [] with rfl | hd
        · rw [cupsHashData_badArgs b (some alg) (some []) (some buf) (by simp)]
          exact Or.inl ⟨rfl, rfl⟩
        rcases eq_or_ne buf [] with rfl | hb
        · rw [cupsHashData_badArgs b (some alg) (some d) (some []) (by simp)]
          exact Or.inl ⟨rfl, rfl⟩
        have hd0 : ¬ d.length = 0 := by simpa [List.length_eq_zero] using hd
        have hb0 : ¬ buf.length = 0 := by simpa [List.length_eq_zero] using hb
        rw [cupsHashData_spec b alg d buf hd0 hb0]
        by_cases halg : alg ∈ recognizedAlgs
        · rw [if_pos halg]
          by_cases hcap : buf.length < canonLen alg
          · rw [if_pos hcap]; exact Or.inl ⟨rfl, rfl⟩
          · rw [if_neg hcap]
            refine Or.inr ⟨?_, rfl⟩
            have h16 := canonLen_pos alg halg
            intro hc
            simp only [HashResult.ret] at hc
            omega
        · rw [if_neg halg]; exact Or.inl ⟨rfl, rfl⟩

/-- Counterexample to C9: a failing cupsHashString call (hash pointer
null, so NULL is returned) during which the error-reporting collaborator is
never invoked, contradicting "both ... invoke the shared error-reporting
collaborator exactly once on every failure path". -/
theorem claim_C9_counterexample :
    (cupsHashString none (some [7, 7, 7])).ret = none ∧
    (cupsHashString none (some [7, 7, 7])).errors = [] :=
  ⟨rfl, rfl⟩

/-- C9 as amended: cupsHashData invokes the error reporter exactly once on
every failure path and never on success, while cupsHashString never invokes
it at all, on failure or on success. -/
theorem claim_C9_amended (b : Backend) (algorithm : Option String)
    (data hash hs buffer : Option (List Nat)) :
    ((cupsHashData b algorithm data hash).ret = -1 →
      (cupsHashData b algorithm data hash).errors.length = 1) ∧
    ((cupsHashData b algorithm data hash).ret ≠ -1 →
      (cupsHashData b algorithm data hash).errors = []) ∧
    (cupsHashString hs buffer).errors = [] := by
  refine ⟨?_, ?_, ?_⟩
  · intro hret
    rcases cupsHashData_errors b algorithm data hash with h | h
    · exact h.2
    · exact absurd hret h.1
  · intro hret
    rcases cupsHashData_errors b algorithm data hash with h | h
    · exact absurd h.1 hret
    · exact h.2
  · cases hs <;> cases buffer <;> simp [cupsHashString] <;> split_ifs <;> rfl

/-- Witness for the amended C9: a failing call reports once, a successful
call reports nothing, and cupsHashString never reports. -/
theorem claim_C9_amended_witness :
    (cupsHashData specBackend none (some [1]) (some [0])).ret = -1 ∧
    (cupsHashData specBackend none (some [1]) (some [0])).errors.length = 1 ∧
    (cupsHashData specBackend (some ("md5")) (some [1])
      (some (List.replicate 16 0))).ret ≠ -1 ∧
    (cupsHashData specBackend (some ("md5")) (some [1])
      (some (List.replicate 16 0))).errors = [] ∧
    (cupsHashString (some [1]) (some [0, 0, 0])).errors = [] := by
  have h1 := claim_C9_amended specBackend none (some [1]) (some [0]) (some [1]) (some [0, 0, 0])
  have h2 := claim_C9_amended specBackend (some ("md5")) (some [1])
    (some (List.replicate 16 0)) none none
  exact ⟨by decide, h1.1 (by decide), by decide, h2.2.1 (by decide), h1.2.2⟩

/-- C7: cupsHashString fails (returns NULL) exactly when the digest pointer
is null, the digest length is zero, the output buffer pointer is null, or
the capacity is below 2 * digest_length + 1; on every failure with a
non-null buffer, the buffer is reset to the empty string (the terminator is
written at its start). -/
theorem claim_C7 (hash buffer : Option (List Nat)) :
    ((cupsHashString hash buffer).ret = none ↔
      hash = none ∨ hash = some [] ∨ buffer = none ∨
        ∃ h buf, hash = some h ∧ buffer = some buf ∧ buf.length < 2 * h.length + 1) ∧
    ∀ buf, buffer = some buf → (cupsHashString hash buffer).ret = none →
      (cupsHashString hash buffer).buf = some (buf.set 0 0) := by
  cases hash with
  | none =>
    cases buffer with
    | none => exact ⟨by simp [cupsHashString], fun buf hb => by cases hb⟩
    | some buf =>
      refine ⟨by simp [cupsHashString], fun buf2 hb _ => ?_⟩
      obtain rfl : buf = buf2 := by simpa using hb
      rfl
  | some h =>
    cases buffer with
    | none => exact ⟨by simp [cupsHashString], fun buf hb => by cases hb⟩
    | some buf =>
      by_cases hc : h.length < 1 ∨ buf.length < 2 * h.length + 1
      · constructor
        · simp only [cupsHashString, if_pos hc]
          have hc2 : h = [] ∨ buf.length < 2 * h.length + 1 := by
            rcases hc with hc | hc
            · exact Or.inl (by simpa [List.length_eq_zero, Nat.lt_one_iff] using hc)
            · exact Or.inr hc
          simp only [true_iff]
          rcases hc2 with rfl | hc2
          · exact Or.inr (Or.inl rfl)
          · exact Or.inr (Or.inr (Or.inr ⟨h, buf, rfl, rfl, hc2⟩))
        · intro buf2 hb _
          obtain rfl : buf = buf2 := by simpa using hb
          simp only [cupsHashString, if_pos hc]
      · have hpos : ¬ h.length < 1 ∧ ¬ buf.length < 2 * h.length + 1 := not_or.mp hc
        constructor
        · simp only [cupsHashString, if_neg hc]
          constructor
          · intro hfalse; exact absurd hfalse (by simp)
          · rintro (hn | hn | hn | ⟨h2, buf2, he1, he2, he3⟩)
            · cases hn
            · obtain rfl : h = [] := by simpa using hn
              exact absurd (show ([] : List Nat).length < 1 by decide) hpos.1
            · cases hn
            · obtain rfl : h = h2 := by simpa using he1
              obtain rfl : buf = buf2 := by simpa using he2
              exact absurd he3 hpos.2
        · intro buf2 hb hret
          exfalso
          rw [show cupsHashString (some h) (some buf) =
            { ret := some (writeBytes buf (hexPairs h ++ [0]) (2 * h.length + 1)),
              buf := some (writeBytes buf (hexPairs h ++ [0]) (2 * h.length + 1)),
              errors := [] } from by simp only [cupsHashString, if_neg hc]] at hret
          cases hret

/-- Witness for C7: a 2-byte buffer (one short of the required 3) for a
1-byte digest fails and resets the buffer. -/
theorem claim_C7_witness :
    (cupsHashString (some [5]) (some [9, 9])).ret = none ∧
    (cupsHashString (some [5]) (some [9, 9])).buf = some ([9, 9].set 0 0) := by
  have h := claim_C7 (some [5]) (some [9, 9])
  have hr : (cupsHashString (some [5]) (some [9, 9])).ret = none :=
    h.1.mpr (Or.inr (Or.inr (Or.inr ⟨[5], [9, 9], rfl, rfl, by decide⟩)))
  exact ⟨hr, h.2 [9, 9] rfl hr⟩

/-- C10: on every failure of cupsHashString with a non-null buffer, exactly
one byte is written, the terminator at index 0 (provided the declared
capacity admits it); bytes at indices 1 and above keep their prior values,
and the buffer length is unchanged. -/
theorem claim_C10 (hash : Option (List Nat)) (buf : List Nat)
    (hfail : (cupsHashString hash (some buf)).ret = none) :
    (cupsHashString hash (some buf)).buf = some (buf.set 0 0) ∧
    (buf.set 0 0).length = buf.length ∧
    (1 ≤ buf.length → (buf.set 0 0)[0]? = some 0) ∧
    ∀ i, 1 ≤ i → (buf.set 0 0)[i]? = buf[i]? := by
  have hbuf : (cupsHashString hash (some buf)).buf = some (buf.set 0 0) := by
    cases hash with
    | none => rfl
    | some h =>
      by_cases hc : h.length < 1 ∨ buf.length < 2 * h.length + 1
      · simp only [cupsHashString, if_pos hc]
      · exfalso
        rw [show cupsHashString (some h) (some buf) =
          { ret := some (writeBytes buf (hexPairs h ++ [0]) (2 * h.length + 1)),
            buf := some (writeBytes buf (hexPairs h ++ [0]) (2 * h.length + 1)),
            errors := [] } from by simp only [cupsHashString, if_neg hc]] at hfail
        cases hfail
  refine ⟨hbuf, by simp, ?_, ?_⟩
  · intro hlen
    exact List.getElem?_set_self (by omega)
  · intro i hi
    exact List.getElem?_set_ne (by omega)

/-- Witness for C10: a null digest pointer with a 2-byte buffer. -/
theorem claim_C10_witness :
    (cupsHashString none (some [9, 8])).ret = none ∧
    (cupsHashString none (some [9, 8])).buf = some ([9, 8].set 0 0) ∧
    ([9, 8].set 0 0)[0]? = some 0 ∧ ([9, 8].set 0 0)[1]? = [9, 8][1]? := by
  have h := claim_C10 none [9, 8] rfl
  exact ⟨rfl, h.1, h.2.2.1 (by decide), h.2.2.2 1 (by decide)⟩

/-- C1: for every recognized identifier, with valid data and a buffer of
capacity at least the canonical length, cupsHashData returns exactly the
canonical digest length (16, 20, 28, 32, 48, 64, 28, 32 bytes), and the
bytes written at the start of the buffer are the reference digest of that
algorithm (the matching backend primitive, truncated SHA-512 for the two
truncated variants). -/
theorem claim_C1 (b : Backend) (hb : BackendLengths b) (alg : String)
    (halg : alg ∈ recognizedAlgs) (d buf : List Nat) (hd : d ≠ [])
    (hcap : canonLen alg ≤ buf.length) :
    (cupsHashData b (some alg) (some d) (some buf)).ret = (canonLen alg : Int) ∧
    (cupsHashData b (some alg) (some d) (some buf)).buf =
      some (refDigest b alg d ++ buf.drop (canonLen alg)) ∧
    (refDigest b alg d).length = canonLen alg := by
  obtain ⟨hm, hs1, h224, h256, h384, h512⟩ := hb
  have hd0 : ¬ d.length = 0 := by simpa [List.length_eq_zero] using hd
  have h16 := canonLen_pos alg halg
  have hb0 : ¬ buf.length = 0 := by omega
  rw [cupsHashData_spec b alg d buf hd0 hb0, if_pos halg, if_neg (by omega)]
  simp only [recognizedAlgs, List.mem_cons, List.not_mem_nil, or_false] at halg
  rcases halg with rfl | rfl | rfl | rfl | rfl | rfl | rfl | rfl <;>
    refine ⟨rfl, ?_, ?_⟩ <;>
      simp [writeBytes, rawDigest, refDigest, canonLen, List.length_take,
        List.take_of_length_le (le_of_eq (hm d)), List.take_of_length_le (le_of_eq (hs1 d)),
        List.take_of_length_le (le_of_eq (h224 d)), List.take_of_length_le (le_of_eq (h256 d)),
        List.take_of_length_le (le_of_eq (h384 d)), List.take_of_length_le (le_of_eq (h512 d)),
        hm d, hs1 d, h224 d, h256 d, h384 d, h512 d]

/-- Witness for C1 at a concrete input: sha over the bytes of abc. -/
theorem claim_C1_witness :
    BackendLengths specBackend ∧ ("sha" ∈ recognizedAlgs) ∧
    (cupsHashData specBackend (some ("sha")) (some [97, 98, 99])
      (some (List.replicate 20 0))).ret = (canonLen ("sha") : Int) ∧
    (cupsHashData specBackend (some ("sha")) (some [97, 98, 99])
      (some (List.replicate 20 0))).buf =
      some (refDigest specBackend ("sha") [97, 98, 99] ++
        (List.replicate 20 0).drop (canonLen ("sha"))) := by
  have h := claim_C1 specBackend specBackend_lengths ("sha") (by decide) [97, 98, 99]
    (List.replicate 20 0) (by decide) (by decide)
  exact ⟨specBackend_lengths, by decide, h.1, h.2.1⟩

/-- C3: the truncated variants return 28 resp. 32 and write exactly the
first 28 resp. 32 bytes of the SHA-512 digest of the same input (the
digest that the sha2-512 identifier writes in full); buffer bytes beyond
the truncated length keep their prior values. -/
theorem claim_C3 (b : Backend) (hb : BackendLengths b) (d buf28 buf32 buf64 : List Nat)
    (hd : d ≠ []) (h28 : 28 ≤ buf28.length) (h32 : 32 ≤ buf32.length)
    (h64 : 64 ≤ buf64.length) :
    (cupsHashData b (some ("sha2-512_224")) (some d) (some buf28)).ret = 28 ∧
    (cupsHashData b (some ("sha2-512_224")) (some d) (some buf28)).buf =
      some ((b.sha512 d).take 28 ++ buf28.drop 28) ∧
    (cupsHashData b (some ("sha2-512_256")) (some d) (some buf32)).ret = 32 ∧
    (cupsHashData b (some ("sha2-512_256")) (some d) (some buf32)).buf =
      some ((b.sha512 d).take 32 ++ buf32.drop 32) ∧
    (cupsHashData b (some ("sha2-512")) (some d) (some buf64)).ret = 64 ∧
    (cupsHashData b (some ("sha2-512")) (some d) (some buf64)).buf =
      some (b.sha512 d ++ buf64.drop 64) := by
  obtain ⟨hm, hs1, h224, h256, h384, h512⟩ := hb
  have hd0 : ¬ d.length = 0 := by simpa [List.length_eq_zero] using hd
  have hb28 : ¬ buf28.length = 0 := by omega
  have hb32 : ¬ buf32.length = 0 := by omega
  have hb64 : ¬ buf64.length = 0 := by omega
  rw [cupsHashData_spec b ("sha2-512_224") d buf28 hd0 hb28,
    cupsHashData_spec b ("sha2-512_256") d buf32 hd0 hb32,
    cupsHashData_spec b ("sha2-512") d buf64 hd0 hb64]
  rw [if_pos (show ("sha2-512_224" : String) ∈ recognizedAlgs by decide),
    if_pos (show ("sha2-512_256" : String) ∈ recognizedAlgs by decide),
    if_pos (show ("sha2-512" : String) ∈ recognizedAlgs by decide)]
  rw [if_neg (show ¬ buf28.length < canonLen ("sha2-512_224") by
      simp only [canonLen]; omega),
    if_neg (show ¬ buf32.length < canonLen ("sha2-512_256") by
      simp only [canonLen]; omega),
    if_neg (show ¬ buf64.length < canonLen ("sha2-512") by
      simp only [canonLen]; omega)]
  refine ⟨rfl, ?_, rfl, ?_, rfl, ?_⟩ <;>
    simp [writeBytes, rawDigest, canonLen, List.take_of_length_le (le_of_eq (h512 d))]

/-- Witness for C3 at a concrete input. -/
theorem claim_C3_witness :
    BackendLengths specBackend ∧
    (cupsHashData specBackend (some ("sha2-512_224")) (some [1, 2])
      (some (List.replicate 28 9))).ret = 28 ∧
    (cupsHashData specBackend (some ("sha2-512_224")) (some [1, 2])
      (some (List.replicate 28 9))).buf =
      some ((specBackend.sha512 [1, 2]).take 28 ++ (List.replicate 28 9).drop 28) ∧
    (cupsHashData specBackend (some ("sha2-512")) (some [1, 2])
      (some (List.replicate 64 9))).buf =
      some (specBackend.sha512 [1, 2] ++ (List.replicate 64 9).drop 64) := by
  have h := claim_C3 specBackend specBackend_lengths [1, 2] (List.replicate 28 9)
    (List.replicate 32 9) (List.replicate 64 9) (by decide) (by decide) (by decide) (by decide)
  exact ⟨specBackend_lengths, h.1, h.2.1, h.2.2.2.2.2⟩

/-- Every hex table entry reached by a nibble is a lowercase hex character
code. -/
theorem hexChar_range (n : Nat) (h : n < 16) :
    (48 ≤ hexChar n ∧ hexChar n ≤ 57) ∨ (97 ≤ hexChar n ∧ hexChar n ≤ 102) := by
  have hall : ∀ m, m < 16 →
      (48 ≤ hexChar m ∧ hexChar m ≤ 57) ∨ (97 ≤ hexChar m ∧ hexChar m ≤ 102) := by decide
  exact hall n h

/-- All characters produced by the conversion loop are lowercase hex
character codes. -/
theorem hexPairs_mem (d : List Nat) (hb : ∀ x ∈ d, x < 256) :
    ∀ c ∈ hexPairs d, (48 ≤ c ∧ c ≤ 57) ∨ (97 ≤ c ∧ c ≤ 102) := by
  induction d with
  | nil => intro c hc; cases hc
  | cons x rest ih =>
    intro c hc
    have hx : x < 256 := hb x (List.mem_cons_self x rest)
    have hhi : x >>> 4 < 16 := by omega
    have hlo : x &&& 15 < 16 := Nat.lt_of_le_of_lt Nat.and_le_right (by omega)
    simp only [hexPairs, List.mem_cons] at hc
    rcases hc with rfl | rfl | hc
    · exact hexChar_range _ hhi
    · exact hexChar_range _ hlo
    · exact ih (fun y hy => hb y (List.mem_cons_of_mem x hy)) c hc

set_option maxRecDepth 4000 in
/-- Decoding the two hex characters of a byte recovers the byte. -/
theorem hexRoundTrip (x : Nat) (h : x < 256) :
    unhexChar (hexChar (x >>> 4)) * 16 + unhexChar (hexChar (x &&& 15)) = x := by
  have hall : ∀ y, y < 256 →
      unhexChar (hexChar (y >>> 4)) * 16 + unhexChar (hexChar (y &&& 15)) = y := by decide
  exact hall x h

/-- Pairwise decoding of the conversion loop output recovers the input
byte sequence. -/
theorem hexDecode_hexPairs (d : List Nat) (hb : ∀ x ∈ d, x < 256) :
    hexDecode (hexPairs d) = d := by
  induction d with
  | nil => rfl
  | cons x rest ih =>
    have hx : x < 256 := hb x (List.mem_cons_self x rest)
    simp [hexPairs, hexDecode, hexRoundTrip x hx,
      ih (fun y hy => hb y (List.mem_cons_of_mem x hy))]

/-- C2: for a byte sequence of length n at least 1 and a buffer of capacity
at least 2n+1, cupsHashString returns the buffer holding the 2n hex
characters (each byte high nibble first, in input order, characters drawn
from 0-9a-f) followed by the terminator, and pairwise decoding recovers the
input exactly. -/
theorem claim_C2 (d buf : List Nat) (hd : d ≠ []) (hbytes : ∀ x ∈ d, x < 256)
    (hcap : 2 * d.length + 1 ≤ buf.length) :
    (cupsHashString (some d) (some buf)).ret =
      some (hexPairs d ++ [0] ++ buf.drop (2 * d.length + 1)) ∧
    (cupsHashString (some d) (some buf)).buf = (cupsHashString (some d) (some buf)).ret ∧
    (hexPairs d).length = 2 * d.length ∧
    (∀ c ∈ hexPairs d, (48 ≤ c ∧ c ≤ 57) ∨ (97 ≤ c ∧ c ≤ 102)) ∧
    hexDecode (hexPairs d) = d := by
  have hd0 : ¬ d.length = 0 := by simpa [List.length_eq_zero] using hd
  have hc : ¬ (d.length < 1 ∨ buf.length < 2 * d.length + 1) := by push_neg; omega
  refine ⟨?_, ?_, hexPairs_length d, hexPairs_mem d hbytes, hexDecode_hexPairs d hbytes⟩
  · simp only [cupsHashString, if_neg hc]
    congr 1
    simp only [writeBytes]
    rw [List.take_of_length_le (by simp [hexPairs_length])]
  · simp only [cupsHashString, if_neg hc]

/-- Witness for C2 at a concrete input: the byte 0xab in a 3-byte buffer. -/
theorem claim_C2_witness :
    (([171] : List Nat) ≠ []) ∧ (∀ x ∈ ([171] : List Nat), x < 256) ∧
    2 * ([171] : List Nat).length + 1 ≤ ([0, 0, 0] : List Nat).length ∧
    (cupsHashString (some [171]) (some [0, 0, 0])).ret =
      some (hexPairs [171] ++ [0] ++ ([0, 0, 0] : List Nat).drop 3) ∧
    hexDecode (hexPairs [171]) = [171] := by
  have h := claim_C2 [171] [0, 0, 0] (by decide) (by decide) (by decide)
  exact ⟨by decide, by decide, by decide, h.1, h.2.2.2.2⟩

set_option maxRecDepth 100000 in
/-- Counterexample to C8: hashing the bytes of abc with the sha identifier
and formatting the resulting 20-byte digest does not yield the claimed
39-character string a9993e364706816aba3e25717850c26c9cd0d89 (the string
the buffer holds continues with a further hex character after it). -/
theorem claim_C8_counterexample :
    (cupsHashString
        (some ((cupsHashData specBackend (some ("sha")) (some [97, 98, 99])
          (some (List.replicate 20 0))).buf.getD []))
        (some (List.replicate 41 0))).ret ≠
      some (strBytes ("a9993e364706816aba3e25717850c26c9cd0d89") ++ [0] ++
        (List.replicate 41 0).drop 40) := by
  decide

set_option maxRecDepth 100000 in
/-- C8 as amended: hashing the 3-byte input abc with algorithm sha into a
20-byte buffer returns length 20, and formatting that digest yields the
40-character string a9993e364706816aba3e25717850c26c9cd0d89d followed by
the terminator. -/
theorem claim_C8_amended :
    (cupsHashData specBackend (some ("sha")) (some [97, 98, 99])
      (some (List.replicate 20 0))).ret = 20 ∧
    (cupsHashString
        (some ((cupsHashData specBackend (some ("sha")) (some [97, 98, 99])
          (some (List.replicate 20 0))).buf.getD []))
        (some (List.replicate 41 0))).ret =
      some (strBytes ("a9993e364706816aba3e25717850c26c9cd0d89d") ++ [0]) ∧
    (strBytes ("a9993e364706816aba3e25717850c26c9cd0d89d")).length = 40 := by
  refine ⟨by decide, ?_, by decide⟩
  decide
